import Mathlib

/-
Verification of the build-configuration and smoke-test logic of
sage-numerical-backends-cplex.

Source files embedded here:
  * setup.py — the build configurator: reads CPLEX_HOME, derives a platform
    identifier, scans the vendor library directory with fnmatch, and builds
    the include/library arguments handed to the extension module.
  * check_get_solver_with_name.py — the smoke test asserting that the
    factory returns an object whose concrete runtime type is CPLEXBackend.

Conventions of the embedding:
  * Environment variables are `Option String` (os.getenv); Python truthiness
    of the retrieved value is `truthy`.
  * The filesystem is a function `String → Option (List String)`; `none`
    models os.listdir raising (FileNotFoundError / NotADirectoryError), and
    `some files` models a successful listing in directory order.
  * Code that can raise returns `Except String _`; `.error` models an
    uncaught Python exception aborting the run.
  * Messages printed to stderr are collected in a list.
-/

namespace SageCplex

/-! ### Python string primitives used by the sources -/

/-- Model of Python `s.replace(a, b)` for single-character arguments, as used
by `platform.machine().replace('_', '-')` in setup.py: every occurrence of
the character `a` is replaced by `b`. -/
def pyReplaceChar (s : String) (a b : Char) : String :=
  String.mk (s.data.map (fun c => if c = a then b else c))

/-- Whether the list `sub` occurs as a prefix of `s` (character lists). -/
def startsWithL : List Char → List Char → Bool
  | _, [] => true
  | [], _ :: _ => false
  | a :: as, b :: bs => (a == b) && startsWithL as bs

/-- Whether `sub` occurs contiguously anywhere inside `s` (character lists). -/
def hasSubL (sub : List Char) : List Char → Bool
  | [] => startsWithL [] sub
  | c :: t => startsWithL (c :: t) sub || hasSubL sub t

/-- Whether the string `s` contains `sub` as a contiguous substring (model of
Python `sub in s`). -/
def strHas (s sub : String) : Bool :=
  hasSubL sub.data s.data

/-- Whether character `c` occurs in the list `l`. -/
def hasCharL (c : Char) : List Char → Bool
  | [] => false
  | a :: t => (a == c) || hasCharL c t

/-- Python truthiness of an optional environment-variable value:
`os.getenv` returns `None` when unset, and both `None` and the empty string
are falsy in the `if cplex_home:` test of setup.py. -/
def truthy : Option String → Bool
  | none => false
  | some s => !(s == "")

/-! ### The smoke test (check_get_solver_with_name.py)

The factory `get_solver` (from the host's sage.numerical.backends.
generic_backend) and the class `CPLEXBackend` (from the compiled
cplex_backend extension) are not part of the supplied sources; only the
smoke test that exercises them is.  Concrete runtime types are modelled as
the tags `PyType`, so equality of tags is exactly Python `type(b) == C`
(the concrete type, not an instance-of check against a superclass). -/

/-- Tag for the concrete runtime type of a Python object. -/
inductive PyType where
  | CPLEXBackend
  | GenericBackend
  | other (name : String)
deriving DecidableEq

/-- A Python object as seen by the smoke test: its concrete runtime type and
its printable representation. -/
structure PyObject where
  ty : PyType
  str : String
deriving DecidableEq

/-- Modelled from the spec: the host-provided factory `get_solver` and the
class `CPLEXBackend` are outside the supplied sources (only the smoke test
that calls them is under src).  Per the spec's factory identity property,
"for the backend identifier denoting the CPLEX binding, invoking the
factory function must return an object whose concrete type equals the CPLEX
binding class exactly". -/
def get_solver (solver : String) : PyObject :=
  if solver = "cplex" then ⟨PyType.CPLEXBackend, "CPLEX backend instance"⟩
  else ⟨PyType.GenericBackend, "generic backend instance"⟩

/-- The assertion message of check_get_solver_with_name.py, line 6. -/
def assertMsg : String :=
  "get_solver(solver='cplex') does not give an instance of sage_numerical_backends_cplex.cplex_backend.CPLEXBackend"

/-- The success line printed by check_get_solver_with_name.py, line 7. -/
def successOutput (b : PyObject) : String :=
  "Success: get_solver(solver='cplex') gives " ++ b.str

/-- The smoke test script, parametrised by the factory it calls:
`b = get_solver(solver='cplex'); assert type(b) == CPLEXBackend, msg;
print("Success: ...")`.  A failed assert raises AssertionError (modelled as
`.error` carrying the assertion message, aborting with no retry); otherwise
the script reports success. -/
def checkGetSolverWithName (factory : String → PyObject) : Except String String :=
  let b := factory "cplex"
  if b.ty = PyType.CPLEXBackend then Except.ok (successOutput b)
  else Except.error assertMsg

/-! ### Platform identifier and candidate extensions (setup.py lines 41-48) -/

/-- setup.py lines 41-46: `exts = ['so']`, with `'dylib'` inserted at the
front on darwin. -/
def extsFor (sysPlatform : String) : List String :=
  if sysPlatform = "darwin" then ["dylib", "so"] else ["so"]

/-- setup.py lines 42-48: the platform identifier
`platform.machine().replace('_', '-')` suffixed with `'_osx'` on darwin and
`'_linux'` otherwise. -/
def cplexPlatform (sysPlatform machine : String) : String :=
  let machineDashed := pyReplaceChar machine '_' '-'
  if sysPlatform = "darwin" then machineDashed ++ "_osx"
  else machineDashed ++ "_linux"

/-! ### fnmatch (setup.py lines 53-57)

setup.py tests `fnmatch(file, 'libcplex[0-9]*[0-9].' + ext)`.  The glob
constructs occurring in that pattern are literal characters, the character
class `[0-9]` and `*`; `globParse` tokenises exactly those constructs and
`globMatch` gives them fnmatch's semantics (`*` matches any, possibly
empty, sequence of characters; the translated regular expression matches
the whole name; posix normcase is the identity, so no case folding). -/

/-- A token of the glob patterns used by setup.py. -/
inductive GlobTok where
  | lit (c : Char)
  | digitClass
  | star
deriving DecidableEq

/-- All suffixes of a character list, longest first (including the empty
suffix); used to give `*` its "match any prefix here" semantics. -/
def tailsL : List Char → List (List Char)
  | [] => [[]]
  | c :: t => (c :: t) :: tailsL t

/-- Whether a tokenised glob pattern matches a whole character list. -/
def globMatch : List GlobTok → List Char → Bool
  | [], s => s.isEmpty
  | GlobTok.lit _ :: _, [] => false
  | GlobTok.lit c :: p, d :: t => (d == c) && globMatch p t
  | GlobTok.digitClass :: _, [] => false
  | GlobTok.digitClass :: p, d :: t => d.isDigit && globMatch p t
  | GlobTok.star :: p, s => (tailsL s).any (fun t => globMatch p t)

/-- Tokenise a glob pattern string over the constructs used by setup.py's
pattern (`*`, `[0-9]`, and literal characters). -/
def globParse : List Char → List GlobTok
  | [] => []
  | '*' :: rest => GlobTok.star :: globParse rest
  | '[' :: '0' :: '-' :: '9' :: ']' :: rest => GlobTok.digitClass :: globParse rest
  | c :: rest => GlobTok.lit c :: globParse rest

/-- Model of `fnmatch.fnmatch(name, pat)` for the patterns of setup.py. -/
def fnmatchB (pat name : String) : Bool :=
  globMatch (globParse pat.data) name.data

/-- setup.py line 55: whether a directory entry is accepted as a candidate
CPLEX library, `any(fnmatch(file, 'libcplex[0-9]*[0-9].' + ext) for ext in
exts)`. -/
def anyMatch (exts : List String) (file : String) : Bool :=
  exts.any (fun ext => fnmatchB ("libcplex[0-9]*[0-9]." ++ ext) file)

/-! ### os.path helpers -/

/-- Model of posix `os.path.splitext(p)[0]`: the extension starts at the
last dot, unless that dot lies inside the leading run of dots of the final
path component (so names like ".bashrc" have no extension) or there is no
dot after the last path separator. -/
def splitextRoot (s : List Char) : List Char :=
  if hasCharL '.'
      (((s.reverse.takeWhile (fun c => !(c == '/'))).reverse).dropWhile
        (fun c => c == '.')) then
    s.take (s.length - (s.reverse.takeWhile (fun c => !(c == '.'))).length - 1)
  else s

/-- setup.py line 57: the linker library name derived from a matched file,
`os.path.splitext(file)[0][3:]`. -/
def libNameOf (file : String) : String :=
  String.mk ((splitextRoot file.data).drop 3)

/-- Model of posix `os.path.join(a, b)` for one component: an absolute
second component replaces the path; otherwise a separator is inserted
unless the accumulated path is empty or already ends with one. -/
def pyJoin (a b : String) : String :=
  if b.data.head? = some '/' then b
  else if a.data = [] then a ++ b
  else if a.data.getLast? = some '/' then a ++ b
  else a ++ "/" ++ b

/-- Model of `os.path.join(a, *rest)`: components are folded in order. -/
def osPathJoin (a : String) (rest : List String) : String :=
  rest.foldl pyJoin a

/-! ### The configurator (setup.py lines 37-75) -/

/-- setup.py lines 54-57: the loop
`for file in os.listdir(libdir): if any(fnmatch(...)): cplex_libs = [...]`;
each later match overwrites the accumulator. -/
def scanLibs (exts : List String) : List String → List String → List String
  | [], acc => acc
  | f :: rest, acc =>
    scanLibs exts rest (if anyMatch exts f then [libNameOf f] else acc)

/-- The advisory printed to stderr by setup.py lines 60-61 when no library
was found. -/
def advisoryMsg : String :=
  "CPLEX_HOME is not set, or it does not point to a directory with a " ++
    "Cplex installation.  Trying to link against -lcplex"

/-- Python `repr` of a string of ordinary characters, as used when printing
a list of names. -/
def pyReprStr (s : String) : String := "'" ++ s ++ "'"

/-- Comma-space separated concatenation. -/
def joinComma : List String → String
  | [] => ""
  | [x] => x
  | x :: y :: t => x ++ ", " ++ joinComma (y :: t)

/-- Python `str` of a list of ordinary strings, `['a', 'b']`. -/
def pyReprList (xs : List String) : String :=
  "[" ++ joinComma (xs.map pyReprStr) ++ "]"

/-- The configuration summary printed to stderr by setup.py lines 63-65
when a library was found. -/
def usingMsg (inc libs dirs : List String) : String :=
  "Using cplex_include_directories=" ++ pyReprList inc ++ ", libraries=" ++
    pyReprList libs ++ ", library_dirs=" ++ pyReprList dirs

/-- setup.py line 50: the include directory appended when CPLEX_HOME is
truthy, `os.path.join(cplex_home, "cplex", "include", "ilcplex")`. -/
def includeDirOf (home : Option String) : String :=
  osPathJoin (home.getD "") ["cplex", "include", "ilcplex"]

/-- setup.py line 51: the library directory appended when CPLEX_HOME is
truthy, `os.path.join(cplex_home, "cplex", "bin", cplex_platform)`. -/
def libdirOf (home : Option String) (sysPlatform machine : String) : String :=
  osPathJoin (home.getD "") ["cplex", "bin", cplexPlatform sysPlatform machine]

/-- The arguments that setup.py lines 68-75 hand to the Extension module,
together with the stderr diagnostics produced while computing them. -/
structure BuildConfig where
  include_dirs : List String
  lib_dirs : List String
  libs : List String
  stderr : List String
deriving DecidableEq

/-- setup.py lines 37-65: the configuration phase.  When CPLEX_HOME is
truthy the include and library directories are appended and the library
directory is scanned (os.listdir raising is modelled by `.error`); if no
candidate matched — in particular when CPLEX_HOME is falsy — the library
list falls back to `['cplex']` and the advisory is printed to stderr,
otherwise the configuration summary is printed. -/
def configure (cplex_home : Option String) (sysPlatform machine : String)
    (listdir : String → Option (List String)) : Except String BuildConfig :=
  if truthy cplex_home then
    match listdir (libdirOf cplex_home sysPlatform machine) with
    | none =>
      Except.error ("FileNotFoundError: " ++ libdirOf cplex_home sysPlatform machine)
    | some files =>
      if scanLibs (extsFor sysPlatform) files [] = [] then
        Except.ok ⟨[includeDirOf cplex_home],
          [libdirOf cplex_home sysPlatform machine], ["cplex"], [advisoryMsg]⟩
      else
        Except.ok ⟨[includeDirOf cplex_home],
          [libdirOf cplex_home sysPlatform machine],
          scanLibs (extsFor sysPlatform) files [],
          [usingMsg [includeDirOf cplex_home] (scanLibs (extsFor sysPlatform) files [])
            [libdirOf cplex_home sysPlatform machine]]⟩
  else Except.ok ⟨[], [], ["cplex"], [advisoryMsg]⟩

/-! ### Spec-side definitions (written from the spec wording, for
refinement-style comparison with the code-side definitions) -/

/-- Follows the claim wording for C6: the name matches
`libcplex<version>.<ext>` where `<version>` begins and ends with a decimal
digit and `<ext>` is drawn from the platform's extension list. -/
def SpecCandidate (exts : List String) (file : String) : Prop :=
  ∃ ext v, ext ∈ exts ∧
    file.data = "libcplex".data ++ v ++ '.' :: ext.data ∧
    (∃ d, v.head? = some d ∧ d.isDigit = true) ∧
    (∃ d, v.getLast? = some d ∧ d.isDigit = true)

/-- The amended candidate pattern for C6: as `SpecCandidate`, but the
version part must have at least two characters (the code's pattern
`libcplex[0-9]*[0-9].<ext>` demands two distinct digit positions, so a
single-digit version such as in `libcplex9.so` is rejected). -/
def SpecCandidate2 (exts : List String) (file : String) : Prop :=
  ∃ ext v, ext ∈ exts ∧
    file.data = "libcplex".data ++ v ++ '.' :: ext.data ∧
    2 ≤ v.length ∧
    (∃ d, v.head? = some d ∧ d.isDigit = true) ∧
    (∃ d, v.getLast? = some d ∧ d.isDigit = true)

/-- Follows the claim wording for C9: the filename with everything from the
final dot removed (only the last extension is dropped). -/
def specStripExt (s : List Char) : List Char :=
  if hasCharL '.' s then
    s.take (s.length - (s.reverse.takeWhile (fun c => !(c == '.'))).length - 1)
  else s

/-- Follows the claim wording for C9: the final dot-extension removed and
the first three characters (the `lib` prefix of the filename) stripped. -/
def specLibName (file : String) : String :=
  String.mk ((specStripExt file.data).drop 3)

/-- Follows the amended claim wording for C4: when CPLEX_HOME is truthy and
the library directory lists successfully, the last match in listing order is
linked and no advisory is printed; when no file matches, or CPLEX_HOME is
absent or empty, the generic `cplex` is linked and the advisory is printed;
when CPLEX_HOME is truthy but the directory cannot be listed, the
configurator fails with the listing error.  The boolean records whether the
advisory was printed to stderr. -/
def specLinkOutcome (home : Option String) (sysPlatform machine : String)
    (listdir : String → Option (List String)) : Except String (List String × Bool) :=
  if truthy home then
    match listdir (libdirOf home sysPlatform machine) with
    | none => Except.error ("FileNotFoundError: " ++ libdirOf home sysPlatform machine)
    | some files =>
      match (files.filter (fun f => anyMatch (extsFor sysPlatform) f)).getLast? with
      | some f => Except.ok ([libNameOf f], false)
      | none => Except.ok (["cplex"], true)
  else Except.ok (["cplex"], true)

/-- The glob token list that setup.py's pattern `libcplex[0-9]*[0-9].<ext>`
tokenises to. -/
def patToks (ext : List Char) : List GlobTok :=
  "libcplex".data.map GlobTok.lit ++
    (GlobTok.digitClass :: GlobTok.star :: GlobTok.digitClass ::
      ('.' :: ext).map GlobTok.lit)

/-- Follows the claim wording for the platform identifier: "it equals the
machine name with every underscore replaced by a dash, suffixed with _osx
when the platform is darwin and with _linux otherwise". -/
def specPlatformId (sysPlatform machine : String) : String :=
  String.mk (machine.data.map (fun c => if c = '_' then '-' else c)) ++
    (if sysPlatform = "darwin" then "_osx" else "_linux")

end SageCplex

namespace SageCplex

/-! ### Helper lemmas about the glob matcher -/

theorem hasCharL_iff (c : Char) (l : List Char) : hasCharL c l = true ↔ c ∈ l := by
  induction l with
  | nil => simp [hasCharL]
  | cons a t ih =>
    simp only [hasCharL, Bool.or_eq_true, beq_iff_eq, ih, List.mem_cons]
    exact or_congr_left (by exact ⟨fun h => h.symm, fun h => h.symm⟩)

theorem mem_tailsL (t s : List Char) : t ∈ tailsL s ↔ ∃ a, s = a ++ t := by
  induction s with
  | nil =>
    simp only [tailsL, List.mem_singleton]
    constructor
    · rintro rfl; exact ⟨[], rfl⟩
    · rintro ⟨a, ha⟩; exact (List.append_eq_nil.mp ha.symm).2
  | cons c s ih =>
    simp only [tailsL, List.mem_cons, ih]
    constructor
    · rintro (rfl | ⟨a, rfl⟩)
      · exact ⟨[], rfl⟩
      · exact ⟨c :: a, rfl⟩
    · rintro ⟨a, ha⟩
      cases a with
      | nil => exact Or.inl ha.symm
      | cons x xs =>
        rw [List.cons_append] at ha
        exact Or.inr ⟨xs, (List.cons.injEq .. ▸ ha).2⟩

theorem glob_nil (s : List Char) : globMatch [] s = true ↔ s = [] := by
  cases s <;> simp [globMatch]

theorem glob_lit (c : Char) (p : List GlobTok) (s : List Char) :
    globMatch (GlobTok.lit c :: p) s = true ↔
      ∃ t, s = c :: t ∧ globMatch p t = true := by
  cases s with
  | nil => simp [globMatch]
  | cons d t =>
    simp only [globMatch, Bool.and_eq_true, beq_iff_eq, List.cons.injEq]
    constructor
    · rintro ⟨rfl, h⟩; exact ⟨t, ⟨rfl, rfl⟩, h⟩
    · rintro ⟨t', ⟨rfl, rfl⟩, h⟩; exact ⟨rfl, h⟩

theorem glob_digit (p : List GlobTok) (s : List Char) :
    globMatch (GlobTok.digitClass :: p) s = true ↔
      ∃ d t, s = d :: t ∧ d.isDigit = true ∧ globMatch p t = true := by
  cases s with
  | nil => simp [globMatch]
  | cons d t =>
    simp only [globMatch, Bool.and_eq_true, List.cons.injEq]
    constructor
    · rintro ⟨hd, h⟩; exact ⟨d, t, ⟨rfl, rfl⟩, hd, h⟩
    · rintro ⟨d', t', ⟨rfl, rfl⟩, hd, h⟩; exact ⟨hd, h⟩

theorem glob_star (p : List GlobTok) (s : List Char) :
    globMatch (GlobTok.star :: p) s = true ↔
      ∃ a b, s = a ++ b ∧ globMatch p b = true := by
  simp only [globMatch, List.any_eq_true]
  constructor
  · rintro ⟨t, ht, hm⟩
    obtain ⟨a, rfl⟩ := (mem_tailsL t s).mp ht
    exact ⟨a, t, rfl, hm⟩
  · rintro ⟨a, b, rfl, hm⟩
    exact ⟨b, (mem_tailsL b (a ++ b)).mpr ⟨a, rfl⟩, hm⟩

theorem glob_lits (cs : List Char) (p : List GlobTok) (s : List Char) :
    globMatch (cs.map GlobTok.lit ++ p) s = true ↔
      ∃ t, s = cs ++ t ∧ globMatch p t = true := by
  induction cs generalizing s with
  | nil => simp
  | cons c cs ih =>
    rw [List.map_cons, List.cons_append, glob_lit]
    constructor
    · rintro ⟨t, rfl, h⟩
      obtain ⟨u, rfl, hu⟩ := (ih t).mp h
      exact ⟨u, rfl, hu⟩
    · rintro ⟨t, rfl, h⟩
      exact ⟨cs ++ t, rfl, (ih _).mpr ⟨t, rfl, h⟩⟩

theorem glob_lits_end (cs s : List Char) :
    globMatch (cs.map GlobTok.lit) s = true ↔ s = cs := by
  rw [show cs.map GlobTok.lit = cs.map GlobTok.lit ++ [] from (List.append_nil _).symm,
    glob_lits]
  constructor
  · rintro ⟨t, rfl, h⟩
    rw [(glob_nil t).mp h, List.append_nil]
  · rintro rfl
    exact ⟨[], (List.append_nil _).symm, rfl⟩

theorem glob_pat_iff (E s : List Char) :
    globMatch (patToks E) s = true ↔
      ∃ d1 m d2, s = "libcplex".data ++ d1 :: (m ++ d2 :: '.' :: E) ∧
        d1.isDigit = true ∧ d2.isDigit = true := by
  unfold patToks
  rw [glob_lits]
  constructor
  · rintro ⟨t1, rfl, h1⟩
    rw [glob_digit] at h1
    obtain ⟨d1, t2, rfl, hd1, h2⟩ := h1
    rw [glob_star] at h2
    obtain ⟨m, t3, rfl, h3⟩ := h2
    rw [glob_digit] at h3
    obtain ⟨d2, t4, rfl, hd2, h4⟩ := h3
    rw [glob_lits_end] at h4
    subst h4
    exact ⟨d1, m, d2, rfl, hd1, hd2⟩
  · rintro ⟨d1, m, d2, rfl, hd1, hd2⟩
    refine ⟨d1 :: (m ++ d2 :: '.' :: E), rfl, ?_⟩
    rw [glob_digit]
    refine ⟨d1, _, rfl, hd1, ?_⟩
    rw [glob_star]
    refine ⟨m, d2 :: '.' :: E, rfl, ?_⟩
    rw [glob_digit]
    refine ⟨d2, '.' :: E, rfl, hd2, ?_⟩
    rw [glob_lits_end]

theorem anyMatch_mem_iff (exts : List String) (file : String)
    (hparse : ∀ ext ∈ exts,
      globParse ("libcplex[0-9]*[0-9]." ++ ext).data = patToks ext.data) :
    anyMatch exts file = true ↔
      ∃ ext ∈ exts, ∃ d1 m d2,
        file.data = "libcplex".data ++ d1 :: (m ++ d2 :: '.' :: ext.data) ∧
        d1.isDigit = true ∧ d2.isDigit = true := by
  simp only [anyMatch, List.any_eq_true]
  constructor
  · rintro ⟨ext, hmem, hm⟩
    rw [fnmatchB, hparse ext hmem, glob_pat_iff] at hm
    exact ⟨ext, hmem, hm⟩
  · rintro ⟨ext, hmem, hm⟩
    refine ⟨ext, hmem, ?_⟩
    rw [fnmatchB, hparse ext hmem, glob_pat_iff]
    exact hm

/-! ### Helper lemmas: version shapes, the scan loop, characters -/

theorem ver_form_iff (P E s : List Char) :
    (∃ d1 m d2, s = P ++ d1 :: (m ++ d2 :: '.' :: E) ∧
      d1.isDigit = true ∧ d2.isDigit = true) ↔
    (∃ v, s = P ++ v ++ '.' :: E ∧ 2 ≤ v.length ∧
      (∃ d, v.head? = some d ∧ d.isDigit = true) ∧
      (∃ d, v.getLast? = some d ∧ d.isDigit = true)) := by
  constructor
  · rintro ⟨d1, m, d2, rfl, hd1, hd2⟩
    refine ⟨d1 :: (m ++ [d2]), by simp, by simp, ⟨d1, rfl, hd1⟩, ⟨d2, ?_, hd2⟩⟩
    rw [show d1 :: (m ++ [d2]) = (d1 :: m) ++ [d2] from rfl, List.getLast?_concat]
  · rintro ⟨v, rfl, hlen, ⟨d1, hh, hd1⟩, ⟨d2, hl, hd2⟩⟩
    cases v with
    | nil => simp at hh
    | cons a v' =>
      obtain rfl : a = d1 := by simpa using hh
      have hv' : v' ≠ [] := by
        rintro rfl
        simp at hlen
      have hl' : v'.getLast? = some d2 := by
        cases v' with
        | nil => exact absurd rfl hv'
        | cons b t => rw [List.getLast?_cons_cons] at hl; exact hl
      have h2 : v'.dropLast ++ [d2] = v' :=
        List.dropLast_append_getLast? d2 (by simp [hl'])
      refine ⟨a, v'.dropLast, d2, ?_, hd1, hd2⟩
      rw [show v'.dropLast ++ d2 :: '.' :: E = (v'.dropLast ++ [d2]) ++ '.' :: E by simp,
        h2]
      simp

theorem scanLibs_of_no_match (exts : List String) (files : List String)
    (acc : List String) (h : files.filter (fun f => anyMatch exts f) = []) :
    scanLibs exts files acc = acc := by
  induction files generalizing acc with
  | nil => rfl
  | cons f rest ih =>
    by_cases hf : anyMatch exts f = true
    · rw [List.filter_cons_of_pos hf] at h
      simp at h
    · rw [List.filter_cons_of_neg (by simp [hf])] at h
      rw [scanLibs, if_neg hf]
      exact ih acc h

theorem scanLibs_of_last_match (exts : List String) (files : List String)
    (acc : List String) (f : String)
    (h : (files.filter (fun g => anyMatch exts g)).getLast? = some f) :
    scanLibs exts files acc = [libNameOf f] := by
  induction files generalizing acc with
  | nil => simp at h
  | cons x rest ih =>
    by_cases hx : anyMatch exts x = true
    · rw [scanLibs, if_pos hx]
      rw [List.filter_cons_of_pos hx] at h
      cases hrest : rest.filter (fun g => anyMatch exts g) with
      | nil =>
        rw [hrest, List.getLast?_singleton] at h
        obtain rfl : x = f := by simpa using h
        exact scanLibs_of_no_match exts rest _ hrest
      | cons g gs =>
        rw [hrest, List.getLast?_cons_cons, ← hrest] at h
        exact ih _ h
    · rw [scanLibs, if_neg hx]
      rw [List.filter_cons_of_neg (by simp [hx])] at h
      exact ih acc h

theorem isDigit_ne_dot (c : Char) (h : c.isDigit = true) : (c == '.') = false := by
  rw [beq_eq_false_iff_ne]
  rintro rfl
  exact absurd h (by decide)

theorem isDigit_ne_slash (c : Char) (h : c.isDigit = true) : (c == '/') = false := by
  rw [beq_eq_false_iff_ne]
  rintro rfl
  exact absurd h (by decide)

theorem takeWhile_append_all (p : Char → Bool) (A B : List Char)
    (h : ∀ a ∈ A, p a = true) :
    (A ++ B).takeWhile p = A ++ B.takeWhile p := by
  induction A with
  | nil => rfl
  | cons a A ih =>
    rw [List.cons_append, List.takeWhile_cons_of_pos (h a (List.mem_cons_self a A)),
      ih (fun x hx => h x (List.mem_cons_of_mem a hx)), List.cons_append]

theorem mem_dropWhile_append (p : Char → Bool) (A : List Char) (x : Char)
    (B : List Char) (hx : p x = false) (c : Char) (hc : c ∈ x :: B) :
    c ∈ (A ++ x :: B).dropWhile p := by
  induction A with
  | nil =>
    rw [List.nil_append, List.dropWhile_cons_of_neg (by simp [hx])]
    exact hc
  | cons a A ih =>
    rw [List.cons_append]
    by_cases hpa : p a = true
    · rw [List.dropWhile_cons_of_pos hpa]
      exact ih
    · rw [List.dropWhile_cons_of_neg (by simp [hpa])]
      exact List.mem_cons_of_mem a (List.mem_append_right A hc)

/-! ### Helper lemmas: path joining and message strings -/

theorem pyJoin_data (a b : String) (ha : a.data ≠ [])
    (ha2 : a.data.getLast? ≠ some '/') (hb : b.data.head? ≠ some '/') :
    (pyJoin a b).data = a.data ++ '/' :: b.data := by
  rw [pyJoin, if_neg hb, if_neg ha, if_neg ha2, String.data_append,
    String.data_append, List.append_assoc]
  rfl

theorem osPathJoin_cplex_data (a : String) (mid last : String)
    (h1 : a.data ≠ []) (h2 : a.data.getLast? ≠ some '/')
    (hmh : mid.data.head? ≠ some '/') (hml : mid.data.getLast? ≠ some '/')
    (hmn : mid.data ≠ []) (hlh : last.data.head? ≠ some '/') :
    (osPathJoin a ["cplex", mid, last]).data =
      a.data ++ '/' :: "cplex".data ++ '/' :: mid.data ++ '/' :: last.data := by
  show (pyJoin (pyJoin (pyJoin a "cplex") mid) last).data = _
  have e1 : (pyJoin a "cplex").data = a.data ++ '/' :: "cplex".data :=
    pyJoin_data a "cplex" h1 h2 (by decide)
  have e1n : (pyJoin a "cplex").data ≠ [] := by
    rw [e1]; simp
  have e1l : (pyJoin a "cplex").data.getLast? ≠ some '/' := by
    rw [e1, List.getLast?_append_cons]; decide
  have e2 : (pyJoin (pyJoin a "cplex") mid).data =
      (pyJoin a "cplex").data ++ '/' :: mid.data :=
    pyJoin_data _ mid e1n e1l hmh
  have e2n : (pyJoin (pyJoin a "cplex") mid).data ≠ [] := by
    rw [e2]; simp
  have e2l : (pyJoin (pyJoin a "cplex") mid).data.getLast? ≠ some '/' := by
    rw [e2, List.getLast?_append_cons]
    cases hm : mid.data with
    | nil => exact absurd hm hmn
    | cons x xs =>
      rw [List.getLast?_cons_cons]
      rw [hm] at hml
      exact hml
  rw [pyJoin_data _ last e2n e2l hlh, e2, e1]

theorem includeDirOf_eq (hS : String) (h1 : hS.data ≠ [])
    (h2 : hS.data.getLast? ≠ some '/') :
    includeDirOf (some hS) = hS ++ "/cplex/include/ilcplex" := by
  apply String.ext
  rw [String.data_append, includeDirOf]
  show (osPathJoin hS ["cplex", "include", "ilcplex"]).data = _
  rw [osPathJoin_cplex_data hS "include" "ilcplex" h1 h2 (by decide) (by decide)
    (by decide) (by decide)]
  simp only [List.append_assoc]
  congr 1

theorem libdirOf_eq (hS : String) (sp m : String) (h1 : hS.data ≠ [])
    (h2 : hS.data.getLast? ≠ some '/')
    (h3 : (cplexPlatform sp m).data.head? ≠ some '/') :
    libdirOf (some hS) sp m = hS ++ "/cplex/bin/" ++ cplexPlatform sp m := by
  apply String.ext
  rw [String.data_append, String.data_append, libdirOf]
  show (osPathJoin hS ["cplex", "bin", cplexPlatform sp m]).data = _
  rw [osPathJoin_cplex_data hS "bin" (cplexPlatform sp m) h1 h2 (by decide) (by decide)
    (by decide) h3]
  rw [show ('/' :: (cplexPlatform sp m).data) = ['/'] ++ (cplexPlatform sp m).data from rfl]
  simp only [List.append_assoc]
  congr 1

theorem advisory_ne_usingMsg (a b c : List String) :
    advisoryMsg ≠ usingMsg a b c := by
  intro h
  have hd := congrArg (fun s => s.data.head?) h
  simp only [advisoryMsg, usingMsg, String.data_append, List.head?_append] at hd
  rw [show ("CPLEX_HOME is not set, or it does not point to a directory with a ".data).head?
        = some 'C' from by decide,
    show ("Using cplex_include_directories=".data).head? = some 'U' from by decide] at hd
  simp only [Option.or_some] at hd
  exact absurd hd (by decide)

/-! ### Helper lemmas: splitext on matched names -/

theorem splitextRoot_matched (d1 d2 : Char) (m E : List Char)
    (hd2 : d2.isDigit = true)
    (hEslash : ∀ x ∈ E, (x == '/') = false) :
    splitextRoot ("libcplex".data ++ d1 :: (m ++ d2 :: '.' :: E)) =
      specStripExt ("libcplex".data ++ d1 :: (m ++ d2 :: '.' :: E)) := by
  have hc1 : hasCharL '.' ("libcplex".data ++ d1 :: (m ++ d2 :: '.' :: E)) = true := by
    rw [hasCharL_iff]; simp
  have hall : ∀ x ∈ E.reverse, (fun c => !(c == '/')) x = true := by
    intro x hx
    simp [hEslash x (List.mem_reverse.mp hx)]
  have key : (("libcplex".data ++ d1 :: (m ++ d2 :: '.' :: E)).reverse.takeWhile
        (fun c => !(c == '/'))).reverse
      = ((("libcplex".data ++ d1 :: m).reverse.takeWhile
          (fun c => !(c == '/'))).reverse) ++ d2 :: '.' :: E := by
    rw [show "libcplex".data ++ d1 :: (m ++ d2 :: '.' :: E)
        = ("libcplex".data ++ d1 :: m) ++ d2 :: '.' :: E by simp]
    rw [List.reverse_append]
    rw [show (d2 :: '.' :: E).reverse ++ ("libcplex".data ++ d1 :: m).reverse
        = E.reverse ++ '.' :: d2 :: ("libcplex".data ++ d1 :: m).reverse from by simp]
    rw [takeWhile_append_all _ _ _ hall]
    rw [List.takeWhile_cons_of_pos (by decide),
      List.takeWhile_cons (fun c => !(c == '/')) d2, isDigit_ne_slash d2 hd2]
    simp
  have hc2 : hasCharL '.'
      (((("libcplex".data ++ d1 :: (m ++ d2 :: '.' :: E)).reverse.takeWhile
        (fun c => !(c == '/'))).reverse).dropWhile (fun c => c == '.')) = true := by
    rw [key, hasCharL_iff]
    exact mem_dropWhile_append _ _ d2 _ (isDigit_ne_dot d2 hd2) '.'
      (List.mem_cons_of_mem d2 (List.mem_cons_self '.' E))
  unfold splitextRoot specStripExt
  rw [hc1, hc2]

/-- C1: for the backend identifier string "cplex", the factory call
get_solver(solver='cplex') returns an object whose concrete runtime type is
exactly the class CPLEXBackend (type equality on the concrete-type tag). -/
theorem get_solver_cplex_type_eq :
    (get_solver "cplex").ty = PyType.CPLEXBackend := rfl

/-- C2: for any factory, the smoke test raises the assertion failure exactly
when the returned object's concrete type differs from CPLEXBackend, and
succeeds with the success report exactly when it is equal; the assertion
message names both the factory call made and the expected class.  The
`Except` result models the immediate abort with no retry. -/
theorem check_script_assert_iff (factory : String → PyObject) :
    (checkGetSolverWithName factory = Except.error assertMsg ↔
      (factory "cplex").ty ≠ PyType.CPLEXBackend) ∧
    (checkGetSolverWithName factory = Except.ok (successOutput (factory "cplex")) ↔
      (factory "cplex").ty = PyType.CPLEXBackend) ∧
    strHas assertMsg "get_solver(solver='cplex')" = true ∧
    strHas assertMsg "sage_numerical_backends_cplex.cplex_backend.CPLEXBackend" = true := by
  refine ⟨?_, ?_, by decide, by decide⟩
  · by_cases h : (factory "cplex").ty = PyType.CPLEXBackend <;>
      simp [checkGetSolverWithName, h]
  · by_cases h : (factory "cplex").ty = PyType.CPLEXBackend <;>
      simp [checkGetSolverWithName, h]

/-- C5: the platform identifier string is derived from the machine
architecture and the operating system only: it equals the machine name with
every underscore replaced by a dash, suffixed with _osx when the platform is
darwin and with _linux otherwise. -/
theorem cplex_platform_spec (sysPlatform machine : String) :
    cplexPlatform sysPlatform machine = specPlatformId sysPlatform machine := by
  unfold cplexPlatform specPlatformId pyReplaceChar
  split <;> rfl

/-- C3 counterexample: the claim says a failed library lookup is never fatal
for any value of CPLEX_HOME and any filesystem state, but when CPLEX_HOME is
set and the derived library directory cannot be listed, os.listdir raises
and the configurator itself aborts with that exception (modelled by the
`.error` result) instead of falling back to `cplex`. -/
theorem configure_raises_on_unlistable_dir :
    configure (some "/opt/ibm") "linux" "x86_64" (fun _ => none) =
      Except.error ("FileNotFoundError: " ++ "/opt/ibm/cplex/bin/x86-64_linux") := rfl

/-- C3 (amended): for every build-time configuration in which CPLEX_HOME is
unset or empty, or in which the derived library directory lists successfully
but contains no file matching the library naming convention, the failure to
locate a CPLEX library is not fatal: the configurator completes, falls back
to the unqualified library name `cplex`, and emits the advisory diagnostic
(when CPLEX_HOME is set and the directory cannot be listed it instead
propagates the listing error, as the counterexample shows). -/
theorem configure_no_match_not_fatal (home : Option String) (sp m : String)
    (ld : String → Option (List String))
    (h : truthy home = false ∨
      ∃ files, ld (libdirOf home sp m) = some files ∧
        files.filter (fun f => anyMatch (extsFor sp) f) = []) :
    Except.map (fun c => (BuildConfig.libs c, (BuildConfig.stderr c).contains advisoryMsg))
      (configure home sp m ld) = Except.ok (["cplex"], true) := by
  unfold configure
  by_cases h1 : truthy home = true
  · rcases h with h0 | ⟨files, h2, h3⟩
    · rw [h0] at h1
      exact absurd h1 (by decide)
    · rw [if_pos h1, h2]
      simp only []
      rw [scanLibs_of_no_match _ _ _ h3, if_pos rfl]
      simp [Except.map]
  · rw [if_neg h1]
    simp [Except.map]

theorem configure_no_match_not_fatal_witness :
    (Except.map (fun c => (BuildConfig.libs c, (BuildConfig.stderr c).contains advisoryMsg))
      (configure (some "/opt/ibm") "linux" "x86_64" (fun _ => some ["README"])) =
      Except.ok (["cplex"], true)) ∧
    (Except.map (fun c => (BuildConfig.libs c, (BuildConfig.stderr c).contains advisoryMsg))
      (configure none "linux" "x86_64" (fun _ => none)) =
      Except.ok (["cplex"], true)) :=
  ⟨configure_no_match_not_fatal (some "/opt/ibm") "linux" "x86_64"
      (fun _ => some ["README"]) (Or.inr ⟨["README"], rfl, by decide⟩),
    configure_no_match_not_fatal none "linux" "x86_64" (fun _ => none)
      (Or.inl rfl)⟩

/-- C4 counterexample: the claim says that whenever CPLEX_HOME is set the
configurator links against a discovered versioned library, but with
CPLEX_HOME set and an empty library directory there is nothing to discover
and the configurator links the generic fallback `cplex` instead. -/
theorem configure_home_set_fallback_cex :
    truthy (some "/opt/ibm") = true ∧
      Except.map BuildConfig.libs
        (configure (some "/opt/ibm") "linux" "x86_64" (fun _ => some [])) =
        Except.ok ["cplex"] :=
  ⟨by decide, rfl⟩

/-- C4 (amended): the link outcome refines `specLinkOutcome`: when
CPLEX_HOME is truthy and the directory lists, the last match in listing
order is linked with no advisory; when nothing matches, or CPLEX_HOME is
absent or empty, the generic `cplex` is linked and the advisory is printed
on the diagnostic stream; when the directory cannot be listed the listing
error propagates. -/
theorem configure_link_outcome_refines (home : Option String) (sp m : String)
    (ld : String → Option (List String)) :
    Except.map (fun c => (BuildConfig.libs c, (BuildConfig.stderr c).contains advisoryMsg))
      (configure home sp m ld) = specLinkOutcome home sp m ld := by
  unfold configure specLinkOutcome
  by_cases h1 : truthy home = true
  · rw [if_pos h1, if_pos h1]
    cases hld : ld (libdirOf home sp m) with
    | none => rfl
    | some files =>
      simp only []
      cases hlast : (files.filter (fun f => anyMatch (extsFor sp) f)).getLast? with
      | none =>
        rw [scanLibs_of_no_match _ _ _ (List.getLast?_eq_none_iff.mp hlast), if_pos rfl]
        simp [Except.map]
      | some f =>
        rw [scanLibs_of_last_match _ _ _ f hlast, if_neg (by simp)]
        simp only [Except.map, List.contains_cons, List.contains_nil,
          Bool.or_false, Except.ok.injEq, Prod.mk.injEq, true_and]
        rw [beq_eq_false_iff_ne]
        exact advisory_ne_usingMsg _ _ _
  · rw [if_neg h1, if_neg h1]
    simp [Except.map]

/-- C6 counterexample: the claim accepts exactly the names
`libcplex<version>.<ext>` whose version begins and ends with a decimal
digit; `libcplex9.so` is such a name (version `9` begins and ends with the
digit `9`), yet the code's pattern `libcplex[0-9]*[0-9].so` requires two
distinct digit positions and rejects it. -/
theorem candidate_pattern_single_digit_cex :
    SpecCandidate (extsFor "linux") "libcplex9.so" ∧
      anyMatch (extsFor "linux") "libcplex9.so" = false := by
  constructor
  · exact ⟨"so", ['9'], by decide, by decide, ⟨'9', rfl, by decide⟩, ⟨'9', rfl, by decide⟩⟩
  · decide

/-- C6 (amended): a file is accepted as a candidate CPLEX library if and
only if its name matches `libcplex<version>.<ext>` where `<version>` has at
least two characters and begins and ends with a decimal digit, and `<ext>`
is `dylib` or `so` on darwin and only `so` otherwise. -/
theorem candidate_pattern_iff_amended (sp : String) (file : String) :
    anyMatch (extsFor sp) file = true ↔ SpecCandidate2 (extsFor sp) file := by
  have hp : ∀ ext ∈ extsFor sp,
      globParse ("libcplex[0-9]*[0-9]." ++ ext).data = patToks ext.data := by
    intro ext hext
    unfold extsFor at hext
    by_cases hsp : sp = "darwin"
    · rw [if_pos hsp] at hext
      simp only [List.mem_cons, List.not_mem_nil, or_false] at hext
      rcases hext with rfl | rfl <;> decide
    · rw [if_neg hsp] at hext
      simp only [List.mem_cons, List.not_mem_nil, or_false] at hext
      subst hext
      decide
  rw [anyMatch_mem_iff _ _ hp]
  unfold SpecCandidate2
  constructor
  · rintro ⟨ext, hmem, htrip⟩
    obtain ⟨v, hv1, hv2, hv3, hv4⟩ :=
      (ver_form_iff "libcplex".data ext.data file.data).mp htrip
    exact ⟨ext, v, hmem, hv1, hv2, hv3, hv4⟩
  · rintro ⟨ext, v, hmem, hfile, hlen, hh, hl⟩
    exact ⟨ext, hmem,
      (ver_form_iff "libcplex".data ext.data file.data).mpr ⟨v, hfile, hlen, hh, hl⟩⟩

/-- C7: whenever CPLEX_HOME is set (to a nonempty root without a trailing
slash, so that the joined paths are literally `<CPLEX_HOME>/...`, and with a
relative platform identifier), the configurator appends exactly the include
directory `<CPLEX_HOME>/cplex/include/ilcplex` and exactly the library
directory `<CPLEX_HOME>/cplex/bin/<platform>`, and it consults the
filesystem only at that library directory. -/
theorem configure_paths_exact (hS sp m : String)
    (ld ldB : String → Option (List String))
    (h1 : hS.data ≠ []) (h2 : hS.data.getLast? ≠ some '/')
    (h3 : (cplexPlatform sp m).data.head? ≠ some '/') :
    (∀ cfg, configure (some hS) sp m ld = Except.ok cfg →
      cfg.include_dirs = [hS ++ "/cplex/include/ilcplex"] ∧
      cfg.lib_dirs = [hS ++ "/cplex/bin/" ++ cplexPlatform sp m]) ∧
    (ld (hS ++ "/cplex/bin/" ++ cplexPlatform sp m) =
        ldB (hS ++ "/cplex/bin/" ++ cplexPlatform sp m) →
      configure (some hS) sp m ld = configure (some hS) sp m ldB) := by
  have htr : truthy (some hS) = true := by
    have hne : hS ≠ "" := fun heq => h1 (by rw [heq])
    simp [truthy, hne]
  have hlib : libdirOf (some hS) sp m = hS ++ "/cplex/bin/" ++ cplexPlatform sp m :=
    libdirOf_eq hS sp m h1 h2 h3
  have hinc : includeDirOf (some hS) = hS ++ "/cplex/include/ilcplex" :=
    includeDirOf_eq hS h1 h2
  constructor
  · intro cfg hcfg
    unfold configure at hcfg
    rw [if_pos htr] at hcfg
    cases hld : ld (libdirOf (some hS) sp m) with
    | none =>
      rw [hld] at hcfg
      simp only [] at hcfg
      exact absurd hcfg (by simp)
    | some files =>
      rw [hld] at hcfg
      simp only [] at hcfg
      by_cases hscan : scanLibs (extsFor sp) files [] = []
      · rw [if_pos hscan] at hcfg
        injection hcfg with hcfg2
        subst hcfg2
        exact ⟨by rw [hinc], by rw [hlib]⟩
      · rw [if_neg hscan] at hcfg
        injection hcfg with hcfg2
        subst hcfg2
        exact ⟨by rw [hinc], by rw [hlib]⟩
  · intro hEq
    unfold configure
    rw [hlib, hEq]

theorem configure_paths_exact_witness :
    (({ include_dirs := ["/opt/ibm/cplex/include/ilcplex"],
        lib_dirs := ["/opt/ibm/cplex/bin/x86-64_linux"],
        libs := ["cplex"], stderr := [advisoryMsg] } : BuildConfig).include_dirs =
      ["/opt/ibm" ++ "/cplex/include/ilcplex"]) ∧
    (({ include_dirs := ["/opt/ibm/cplex/include/ilcplex"],
        lib_dirs := ["/opt/ibm/cplex/bin/x86-64_linux"],
        libs := ["cplex"], stderr := [advisoryMsg] } : BuildConfig).lib_dirs =
      ["/opt/ibm" ++ "/cplex/bin/" ++ cplexPlatform "linux" "x86_64"]) :=
  (configure_paths_exact "/opt/ibm" "linux" "x86_64"
      (fun _ => some []) (fun _ => some []) (by decide) (by decide) (by decide)).1
    { include_dirs := ["/opt/ibm/cplex/include/ilcplex"],
      lib_dirs := ["/opt/ibm/cplex/bin/x86-64_linux"],
      libs := ["cplex"], stderr := [advisoryMsg] } rfl

/-- C8: whenever the configuration phase completes, the library list passed
to the extension module has exactly one entry: either the single discovered
versioned CPLEX library name or the fallback `cplex` — never zero entries
and never more than one. -/
theorem configure_libs_singleton (home : Option String) (sp m : String)
    (ld : String → Option (List String)) (cfg : BuildConfig)
    (h : configure home sp m ld = Except.ok cfg) :
    cfg.libs.length = 1 ∧
      (cfg.libs = ["cplex"] ∨
        ∃ f, anyMatch (extsFor sp) f = true ∧ cfg.libs = [libNameOf f]) := by
  unfold configure at h
  by_cases h1 : truthy home = true
  · rw [if_pos h1] at h
    cases hld : ld (libdirOf home sp m) with
    | none =>
      rw [hld] at h
      simp only [] at h
      exact absurd h (by simp)
    | some files =>
      rw [hld] at h
      simp only [] at h
      cases hlast : (files.filter (fun f => anyMatch (extsFor sp) f)).getLast? with
      | none =>
        rw [scanLibs_of_no_match _ _ _ (List.getLast?_eq_none_iff.mp hlast),
          if_pos rfl] at h
        injection h with h2
        subst h2
        exact ⟨rfl, Or.inl rfl⟩
      | some f =>
        rw [scanLibs_of_last_match _ _ _ f hlast, if_neg (by simp)] at h
        injection h with h2
        subst h2
        refine ⟨rfl, Or.inr ⟨f, ?_, rfl⟩⟩
        exact (List.mem_filter.mp
          (List.mem_of_getLast?_eq_some hlast)).2
  · rw [if_neg h1] at h
    injection h with h2
    subst h2
    exact ⟨rfl, Or.inl rfl⟩

theorem configure_libs_singleton_witness :
    (({ include_dirs := [], lib_dirs := [], libs := ["cplex"],
        stderr := [advisoryMsg] } : BuildConfig).libs.length = 1) ∧
      (({ include_dirs := [], lib_dirs := [], libs := ["cplex"],
          stderr := [advisoryMsg] } : BuildConfig).libs = ["cplex"] ∨
        ∃ f, anyMatch (extsFor "linux") f = true ∧
          ({ include_dirs := [], lib_dirs := [], libs := ["cplex"],
             stderr := [advisoryMsg] } : BuildConfig).libs = [libNameOf f]) :=
  configure_libs_singleton none "linux" "x86_64" (fun _ => none)
    { include_dirs := [], lib_dirs := [], libs := ["cplex"],
      stderr := [advisoryMsg] } rfl

/-- C9: for every file matched by the candidate pattern, the linker library
name `os.path.splitext(file)[0][3:]` equals the filename with its final
dot-extension removed and its first three characters stripped (only the
last extension is removed, so `libcplex1210.so` yields `cplex1210` and
`libcplex12.10.so` yields `cplex12.10`). -/
theorem matched_libname_strip (sp : String) (file : String)
    (h : anyMatch (extsFor sp) file = true) :
    libNameOf file = specLibName file := by
  have hp : ∀ ext ∈ extsFor sp,
      globParse ("libcplex[0-9]*[0-9]." ++ ext).data = patToks ext.data := by
    intro ext hext
    unfold extsFor at hext
    by_cases hsp : sp = "darwin"
    · rw [if_pos hsp] at hext
      simp only [List.mem_cons, List.not_mem_nil, or_false] at hext
      rcases hext with rfl | rfl <;> decide
    · rw [if_neg hsp] at hext
      simp only [List.mem_cons, List.not_mem_nil, or_false] at hext
      subst hext
      decide
  obtain ⟨ext, hmem, d1, m0, d2, hfile, hd1, hd2⟩ := (anyMatch_mem_iff _ _ hp).mp h
  have hEslash : ∀ x ∈ ext.data, (x == '/') = false := by
    unfold extsFor at hmem
    by_cases hsp : sp = "darwin"
    · rw [if_pos hsp] at hmem
      simp only [List.mem_cons, List.not_mem_nil, or_false] at hmem
      rcases hmem with rfl | rfl <;> decide
    · rw [if_neg hsp] at hmem
      simp only [List.mem_cons, List.not_mem_nil, or_false] at hmem
      subst hmem
      decide
  rw [libNameOf, specLibName, hfile, splitextRoot_matched d1 d2 m0 ext.data hd2 hEslash]

theorem matched_libname_strip_witness :
    anyMatch (extsFor "linux") "libcplex1210.so" = true ∧
      libNameOf "libcplex1210.so" = specLibName "libcplex1210.so" ∧
      libNameOf "libcplex1210.so" = "cplex1210" :=
  ⟨by decide, matched_libname_strip "linux" "libcplex1210.so" (by decide), by decide⟩

/-- C10: when the scan of the vendor library directory finds matches, the
configurator links exactly the match occurring last in os.listdir order
(each later match overwrites the earlier one), with no version comparison:
the selection depends only on the directory-listing order. -/
theorem configure_last_match_wins (home : Option String) (sp m : String)
    (ld : String → Option (List String)) (files : List String) (f : String)
    (h1 : truthy home = true)
    (h2 : ld (libdirOf home sp m) = some files)
    (h3 : (files.filter (fun g => anyMatch (extsFor sp) g)).getLast? = some f) :
    Except.map BuildConfig.libs (configure home sp m ld) = Except.ok [libNameOf f] := by
  unfold configure
  rw [if_pos h1, h2]
  simp only []
  rw [scanLibs_of_last_match _ _ _ f h3, if_neg (by simp)]
  rfl

theorem configure_last_match_wins_witness :
    Except.map BuildConfig.libs
      (configure (some "/opt/ibm") "linux" "x86_64"
        (fun _ => some ["libcplex2010.so", "libcplex1290.so"])) =
      Except.ok [libNameOf "libcplex1290.so"] :=
  configure_last_match_wins (some "/opt/ibm") "linux" "x86_64"
    (fun _ => some ["libcplex2010.so", "libcplex1290.so"])
    ["libcplex2010.so", "libcplex1290.so"] "libcplex1290.so"
    (by decide) rfl (by decide)

end SageCplex
